import Mathlib

/-!
Shallow embedding of the documentation link rewriting scripts of the
repository: the script that adds the canonical ".md" extension to relative
links (raps/scripts/add-md-extensions.py), the script that unwraps
template-relative helper links (fix-jekyll-links.py), and the script that
strips the redundant "commands/" directory segment
(raps/scripts/fix-relative-links.py).

Strings are modelled by Lean String (a list of characters in this
toolchain); the Python regular-expression substitutions are modelled by
explicit left-to-right scanners that reproduce the deterministic matching
behaviour of the patterns used by the scripts.
-/

namespace Raps

/-- Python s.startswith(p), on the character lists of the two strings. -/
def startsWithB (s p : String) : Bool :=
  p.data.isPrefixOf s.data

/-- Python s.endswith(p), on the character lists of the two strings. -/
def endsWithB (s p : String) : Bool :=
  p.data.reverse.isPrefixOf s.data.reverse

/-- Python s.upper(), character-wise ASCII uppercasing (the inputs the
scripts compare against their denylist are plain ASCII). -/
def pyUpper (s : String) : String :=
  String.mk (s.data.map Char.toUpper)

/-- Python membership test for the character # in a string. -/
def hasHash : List Char → Bool
  | [] => false
  | c :: cs => c == '#' || hasHash cs

/-- The part of url before the first #, that is Python url.split with
separator # and maxsplit 1, first component. -/
def beforeHash : List Char → List Char
  | [] => []
  | c :: cs => if c == '#' then [] else c :: beforeHash cs

/-- The part of url after the first #, that is Python url.split with
separator # and maxsplit 1, second component. -/
def afterHash : List Char → List Char
  | [] => []
  | c :: cs => if c == '#' then cs else afterHash cs

/-- Python url_part.lstrip with argument the slash character: removes
every leading slash. -/
def lstripSlashes : List Char → List Char
  | [] => []
  | c :: cs => if c == '/' then lstripSlashes cs else c :: cs

/-- The replace_link inner function of fix_links_in_file in
raps/scripts/add-md-extensions.py, as a function of the two regex
capture groups: the display text and the raw target url. -/
def addMdReplaceLink (linkText url : String) : String :=
  let g0 := "[" ++ linkText ++ "](" ++ url ++ ")"
  if startsWithB url "http://" ∨ startsWithB url "https://" ∨
     startsWithB url "mailto:" ∨ startsWithB url "#" ∨
     startsWithB url "ftp://" ∨ startsWithB url "file://" then g0
  else if endsWithB url ".md" ∨ endsWithB url ".md#" then g0
  else if hasHash url.data then
    let path := String.mk (beforeHash url.data)
    let anchor := String.mk (afterHash url.data)
    if path = "" then g0
    else if pyUpper path = "SECURITY" ∨ pyUpper path = "RELEASE" then g0
    else
      let newUrl := path ++ ".md#" ++ anchor
      "[" ++ linkText ++ "](" ++ newUrl ++ ")"
  else
    if pyUpper url = "SECURITY" ∨ pyUpper url = "RELEASE" then g0
    else
      let newUrl := url ++ ".md"
      "[" ++ linkText ++ "](" ++ newUrl ++ ")"

/-- The replace_link inner function of fix_file in fix-jekyll-links.py, as
a function of the three regex capture groups: display text, the quoted
path operand of the template helper, and the optional fragment. -/
def jekyllReplaceLink (linkText urlPart : String) (anchor : Option String) : String :=
  let url := String.mk (lstripSlashes urlPart.data)
  let url :=
    if ¬ endsWithB url ".md" ∧ ¬ startsWithB url "http" ∧ ¬ startsWithB url "#" then
      url ++ ".md"
    else url
  let url :=
    match anchor with
    | some a => if a = "" then url else url ++ "#" ++ a
    | none => url
  "[" ++ linkText ++ "](" ++ url ++ ")"

/-- The replace_link inner function of fix_links_in_file in
raps/scripts/fix-relative-links.py, as a function of the two regex capture
groups: display text and the part of the target after the literal
"commands/". -/
def fixRelReplaceLink (linkText url : String) : String :=
  "[" ++ linkText ++ "](" ++ url ++ ")"

/-- Consume an exact literal at the front of a character list, returning
the remainder on success. -/
def dropLit : List Char → List Char → Option (List Char)
  | [], s => some s
  | _ :: _, [] => none
  | c :: cs, x :: xs => if c = x then dropLit cs xs else none

/-- Attempt to match the markdown link pattern of add-md-extensions.py
(bracketed nonempty display text, then a parenthesised nonempty target)
at the head of the input; on success return display text, target and the
rest of the input after the match. -/
def matchMdLink : List Char → Option (List Char × List Char × List Char)
  | '[' :: cs =>
      let t := cs.takeWhile (· != ']')
      match cs.dropWhile (· != ']') with
      | ']' :: '(' :: cs2 =>
          if t.isEmpty then none
          else
            let u := cs2.takeWhile (· != ')')
            match cs2.dropWhile (· != ')') with
            | ')' :: rest => if u.isEmpty then none else some (t, u, rest)
            | _ => none
      | _ => none
  | _ => none

/-- Attempt to match the link pattern of fix-relative-links.py, whose
target must begin with the literal "commands/", at the head of the input. -/
def matchCmdLink : List Char → Option (List Char × List Char × List Char)
  | '[' :: cs =>
      let t := cs.takeWhile (· != ']')
      match cs.dropWhile (· != ']') with
      | ']' :: '(' :: cs2 =>
          if t.isEmpty then none
          else
            match dropLit "commands/".data cs2 with
            | some cs3 =>
                let u := cs3.takeWhile (· != ')')
                match cs3.dropWhile (· != ')') with
                | ')' :: rest => if u.isEmpty then none else some (t, u, rest)
                | _ => none
            | none => none
      | _ => none
  | _ => none

/-- Left-to-right nonoverlapping substitution of the add-md-extensions.py
link pattern, advancing one character when no match starts at the current
position; the fuel argument bounds the recursion and is instantiated with
the length of the input, which every step strictly consumes. -/
def subMdLinks : Nat → List Char → List Char
  | 0, s => s
  | _ + 1, [] => []
  | n + 1, c :: cs =>
      match matchMdLink (c :: cs) with
      | some (t, u, rest) =>
          (addMdReplaceLink (String.mk t) (String.mk u)).data ++ subMdLinks n rest
      | none => c :: subMdLinks n cs

/-- Left-to-right nonoverlapping substitution of the fix-relative-links.py
link pattern. -/
def subCmdLinks : Nat → List Char → List Char
  | 0, s => s
  | _ + 1, [] => []
  | n + 1, c :: cs =>
      match matchCmdLink (c :: cs) with
      | some (t, u, rest) =>
          (fixRelReplaceLink (String.mk t) (String.mk u)).data ++ subCmdLinks n rest
      | none => c :: subCmdLinks n cs

/-- The content transformation performed by fix_links_in_file in
raps/scripts/add-md-extensions.py: the regex substitution over the whole
document text. -/
def fixAddMdContent (content : String) : String :=
  String.mk (subMdLinks content.data.length content.data)

/-- The content transformation performed by fix_links_in_file in
raps/scripts/fix-relative-links.py. -/
def fixRelContent (content : String) : String :=
  String.mk (subCmdLinks content.data.length content.data)

/-- Python substring membership test, as in the check of
fix-relative-links.py that the file path mentions "commands". -/
def containsSub (needle : List Char) : List Char → Bool
  | [] => needle.isEmpty
  | c :: cs => needle.isPrefixOf (c :: cs) || containsSub needle cs

/-- The write effect and return value of fix_links_in_file in
raps/scripts/add-md-extensions.py on a successfully read document: the
list of file writes performed (path paired with the full new text) and
the boolean returned to main. -/
def addMdFixFile (path content : String) : List (String × String) × Bool :=
  let newContent := fixAddMdContent content
  if newContent ≠ content then ([(path, newContent)], true) else ([], false)

/-- The write effect and return value of fix_links_in_file in
raps/scripts/fix-relative-links.py, including its early return for files
whose path does not mention "commands". -/
def fixRelFixFile (path content : String) : List (String × String) × Bool :=
  if ¬ containsSub "commands".data path.data then ([], false)
  else
    let newContent := fixRelContent content
    if newContent ≠ content then ([(path, newContent)], true) else ([], false)

/-- A document as seen by one run of a script: its path, the outcome of
reading it (the text, or the message of the exception raised), and, for
the write that would follow a change, the message of the exception the
write raises, if any. -/
structure PyDoc where
  path : String
  readResult : Except String String
  writeFailure : Option String

/-- What one iteration of the main loop of add-md-extensions.py does with
one document: a performed write, no change, or an error caught by the
per-document try block and logged. -/
inductive DocOutcome where
  | fixed (path newContent : String)
  | unchanged (path : String)
  | errorLogged (path cause : String)
deriving DecidableEq

/-- One call of fix_links_in_file of add-md-extensions.py on a document:
the try block catches a read failure, or a write failure after a changed
transformation, and logs it; otherwise the document is written exactly
when the transformed text differs. -/
def addMdProcessDoc (d : PyDoc) : DocOutcome :=
  match d.readResult with
  | .error e => .errorLogged d.path e
  | .ok content =>
      let newContent := fixAddMdContent content
      if newContent ≠ content then
        match d.writeFailure with
        | some e => .errorLogged d.path e
        | none => .fixed d.path newContent
      else .unchanged d.path

/-- The main loop of add-md-extensions.py over the enumerated documents:
each document is processed independently, in order. -/
def addMdRun (docs : List PyDoc) : List DocOutcome :=
  docs.map addMdProcessDoc

/-- The filesystem as seen by main of add-md-extensions.py: whether the
root docs directory exists, and the markdown files found under it. -/
structure DocsTree where
  docsExists : Bool
  mdFiles : List PyDoc

/-- The observable result of one process run: the lines printed, the file
writes performed, and the process exit status. -/
structure RunResult where
  output : List String
  writes : List (String × String)
  exitCode : Nat
deriving DecidableEq

/-- The line printed for a document by the main loop, if any: the error
line printed inside fix_links_in_file, or the fixed line printed by main
when fix_links_in_file returns true. -/
def docLine : DocOutcome → Option String
  | .fixed p _ => some ("  Fixed: " ++ p)
  | .errorLogged p e => some ("Error processing " ++ p ++ ": " ++ e)
  | .unchanged _ => none

/-- The write performed for a document, if any. -/
def docWrite : DocOutcome → Option (String × String)
  | .fixed p c => some (p, c)
  | _ => none

/-- Whether the outcome counts towards the fixed files counter. -/
def isFixed : DocOutcome → Bool
  | .fixed _ _ => true
  | _ => false

/-- main of raps/scripts/add-md-extensions.py: when the docs directory is
missing it prints one error line and returns, so the interpreter exits
with status zero; otherwise it prints the discovery header, processes
every file, and prints the final summary line, again exiting with status
zero. -/
def addMdMain (tree : DocsTree) : RunResult :=
  if ¬ tree.docsExists then
    { output := ["Error: docs directory not found"], writes := [], exitCode := 0 }
  else
    let outcomes := addMdRun tree.mdFiles
    { output :=
        ["Found " ++ toString tree.mdFiles.length ++ " markdown files",
         "Adding .md extensions to relative links..."] ++
        outcomes.filterMap docLine ++
        ["Fixed " ++ toString (outcomes.filter isFixed).length ++ " files"],
      writes := outcomes.filterMap docWrite,
      exitCode := 0 }

/-- Stated from the words of claim C3: remove exactly one leading path
separator from the unwrapped template path. -/
def stripOneSep (s : String) : String :=
  match s.data with
  | '/' :: rest => String.mk rest
  | _ => s

/-- Stated from the words of claim C3: the target the claim predicts for
an unwrapped template path, namely strip one leading separator, append
the canonical extension if absent, reattach the fragment. -/
def claimC3Target (urlPart : String) (anchor : Option String) : String :=
  let bare := stripOneSep urlPart
  let withExt := if endsWithB bare ".md" then bare else bare ++ ".md"
  match anchor with
  | some a => withExt ++ "#" ++ a
  | none => withExt

/-- The amended description of the fix-jekyll-links.py target rewriting:
strip all leading path separators, append the canonical extension unless
the stripped path already ends in it or starts with "http" or with "#",
then reattach the fragment. Stated independently of the source embedding,
to be compared with it. -/
def amendedJekyllTarget (urlPart : String) (anchor : Option String) : String :=
  let bare := String.mk (urlPart.data.dropWhile (· == '/'))
  let withExt :=
    if endsWithB bare ".md" ∨ startsWithB bare "http" ∨ startsWithB bare "#" then bare
    else bare ++ ".md"
  match anchor with
  | some a => withExt ++ "#" ++ a
  | none => withExt

theorem data_append (s t : String) : (s ++ t).data = s.data ++ t.data := rfl

theorem isEmpty_false_of_ne_nil {l : List Char} (h : l ≠ []) : l.isEmpty = false := by
  cases l with
  | nil => exact absurd rfl h
  | cons c cs => rfl

theorem subCmdLinks_nil (n : Nat) : subCmdLinks n [] = [] := by
  cases n <;> rfl

theorem dropLit_self (lit s : List Char) : dropLit lit (lit ++ s) = some s := by
  induction lit with
  | nil => rfl
  | cons c cs ih => simp [dropLit, ih]

theorem takeWhile_stop (p : Char → Bool) (a : List Char) (x : Char) (r : List Char)
    (ha : ∀ c ∈ a, p c = true) (hx : p x = false) :
    (a ++ x :: r).takeWhile p = a ∧ (a ++ x :: r).dropWhile p = x :: r := by
  induction a with
  | nil => simp [List.takeWhile_cons, List.dropWhile_cons, hx]
  | cons c cs ih =>
      have hc : p c = true := ha c (List.mem_cons_self c cs)
      have ih2 := ih fun d hd => ha d (List.mem_cons_of_mem c hd)
      simp [List.takeWhile_cons, List.dropWhile_cons, hc, ih2.1, ih2.2]

theorem beforeHash_of_not_hasHash (l : List Char) (h : hasHash l = false) :
    beforeHash l = l := by
  induction l with
  | nil => rfl
  | cons c cs ih =>
      simp only [hasHash, Bool.or_eq_false_iff] at h
      simp [beforeHash, h.1, ih h.2]

theorem lstripSlashes_eq_dropWhile (l : List Char) :
    lstripSlashes l = l.dropWhile (· == '/') := by
  induction l with
  | nil => rfl
  | cons c cs ih =>
      by_cases h : c = '/'
      · simp [lstripSlashes, List.dropWhile_cons, h, ih]
      · simp [lstripSlashes, List.dropWhile_cons, h]

/-- C1: for target references carrying a scheme, a mailto, a pure
fragment, a canonical extension possibly followed by a fragment, or a
denylisted bare filename, the spec claims the rewriter returns the match
unchanged; but the source treats a canonical extension followed by a
fragment as rewritable and appends a second extension, as this evaluation
of the embedded replace_link of add-md-extensions.py shows. -/
theorem C1_md_fragment_rewritten :
    addMdReplaceLink "x" "page.md#intro" = "[x](page.md.md#intro)" ∧
    addMdReplaceLink "x" "page.md#intro" ≠ "[x](page.md#intro)" := by
  constructor <;> decide

/-- C2: the spec claims the rewriting passes are idempotent, with a second
application producing zero changes; the embedded content transformation of
add-md-extensions.py changes its own output on a document whose link
target already ends in the canonical extension followed by a fragment. -/
theorem C2_second_pass_changes :
    fixAddMdContent "[x](a.md#s)" = "[x](a.md.md#s)" ∧
    fixAddMdContent (fixAddMdContent "[x](a.md#s)") ≠ fixAddMdContent "[x](a.md#s)" ∧
    fixAddMdContent (fixAddMdContent "[x](a.md#s)") = "[x](a.md.md.md#s)" := by
  refine ⟨by decide, by decide, by decide⟩

/-- C5: the spec claims link syntax inside fenced code blocks is never
matched; the embedded scanner of add-md-extensions.py, which reproduces
the whole-text regex of the source, rewrites a link sitting inside a
fenced code block. -/
theorem C5_code_fence_rewritten :
    fixAddMdContent "```\n[x](page)\n```" = "```\n[x](page.md)\n```" ∧
    fixAddMdContent "```\n[x](page)\n```" ≠ "```\n[x](page)\n```" := by
  constructor <;> decide

/-- C4 counterexample: the claim says a missing root directory is
signalled to the invoking environment with a non-zero-equivalent exit;
the embedded main of add-md-extensions.py prints the error, touches no
document, and the process still exits with status zero. -/
theorem C4_cex_zero_exit :
    (addMdMain ⟨false, [⟨"docs/a.md", Except.ok "[x](a)", none⟩]⟩).exitCode = 0 ∧
    (addMdMain ⟨false, [⟨"docs/a.md", Except.ok "[x](a)", none⟩]⟩).output =
      ["Error: docs directory not found"] ∧
    (addMdMain ⟨false, [⟨"docs/a.md", Except.ok "[x](a)", none⟩]⟩).writes = [] :=
  ⟨rfl, rfl, rfl⟩

/-- C4 amended: if the root documents directory does not exist the program
emits an error message and terminates immediately before touching any
document, but the process exit status is zero rather than non-zero;
otherwise it always completes with a summary line regardless of how many
individual documents failed. -/
theorem C4_amended_exit_behavior (tree : DocsTree) :
    (tree.docsExists = false →
      addMdMain tree = ⟨["Error: docs directory not found"], [], 0⟩)
  ∧ (tree.docsExists = true →
      (addMdMain tree).exitCode = 0 ∧
      ∃ k : Nat, (addMdMain tree).output.getLast? =
        some ("Fixed " ++ toString k ++ " files")) := by
  constructor
  · intro h
    simp [addMdMain, h]
  · intro h
    refine ⟨by simp [addMdMain, h], ((addMdRun tree.mdFiles).filter isFixed).length, ?_⟩
    simp only [addMdMain, h]
    rw [if_neg (by simp)]
    dsimp only
    exact List.getLast?_concat _

theorem C4_amended_exit_behavior_witness :
    (addMdMain ⟨false, []⟩ = ⟨["Error: docs directory not found"], [], 0⟩)
  ∧ ((addMdMain ⟨true, []⟩).exitCode = 0 ∧
      ∃ k : Nat, (addMdMain ⟨true, []⟩).output.getLast? =
        some ("Fixed " ++ toString k ++ " files")) :=
  ⟨(C4_amended_exit_behavior ⟨false, []⟩).1 rfl,
   (C4_amended_exit_behavior ⟨true, []⟩).2 rfl⟩

/-- C8: a read failure, or a write failure on a changed document, is
caught at the per-document boundary of fix_links_in_file, logged with the
document path and the cause, and the surrounding documents are processed
exactly as they would be on their own. -/
theorem C8_per_document_errors (pre post : List PyDoc) (p cause c : String) :
    addMdRun (pre ++ ⟨p, Except.error cause, none⟩ :: post) =
      addMdRun pre ++ DocOutcome.errorLogged p cause :: addMdRun post
  ∧ (fixAddMdContent c ≠ c →
      addMdRun (pre ++ ⟨p, Except.ok c, some cause⟩ :: post) =
        addMdRun pre ++ DocOutcome.errorLogged p cause :: addMdRun post) := by
  constructor
  · simp [addMdRun, addMdProcessDoc]
  · intro hc
    simp [addMdRun, addMdProcessDoc, hc]

theorem C8_per_document_errors_witness :
    (addMdRun ([] ++ ⟨"docs/a.md", Except.error "boom", none⟩ ::
        [⟨"docs/c.md", Except.ok "hello", none⟩]) =
      addMdRun [] ++ DocOutcome.errorLogged "docs/a.md" "boom" ::
        addMdRun [⟨"docs/c.md", Except.ok "hello", none⟩])
  ∧ fixAddMdContent "[x](a)" ≠ "[x](a)"
  ∧ (addMdRun ([] ++ ⟨"docs/b.md", Except.ok "[x](a)", some "disk full"⟩ :: []) =
      addMdRun [] ++ DocOutcome.errorLogged "docs/b.md" "disk full" :: addMdRun []) :=
  ⟨(C8_per_document_errors [] [⟨"docs/c.md", Except.ok "hello", none⟩]
      "docs/a.md" "boom" "x").1,
   by decide,
   (C8_per_document_errors [] [] "docs/b.md" "disk full" "[x](a)").2 (by decide)⟩

/-- C9: a document whose text is unchanged by the transformation is never
written back, and a changed document is written in full, exactly once,
with the complete new text; shown for the document updaters of
add-md-extensions.py and fix-relative-links.py. -/
theorem C9_no_op_write_avoidance (path content : String) :
    (fixAddMdContent content = content → addMdFixFile path content = ([], false))
  ∧ (fixAddMdContent content ≠ content →
      addMdFixFile path content = ([(path, fixAddMdContent content)], true))
  ∧ (fixRelContent content = content → fixRelFixFile path content = ([], false))
  ∧ (containsSub "commands".data path.data = true → fixRelContent content ≠ content →
      fixRelFixFile path content = ([(path, fixRelContent content)], true)) := by
  refine ⟨fun h => by simp [addMdFixFile, h], fun h => by simp [addMdFixFile, h],
    fun h => ?_, fun hp h => by simp [fixRelFixFile, hp, h]⟩
  unfold fixRelFixFile
  split
  · rfl
  · simp [h]

theorem C9_no_op_write_avoidance_witness :
    (addMdFixFile "docs/index.md" "plain text" = ([], false))
  ∧ (addMdFixFile "docs/index.md" "[x](a)" =
      ([("docs/index.md", fixAddMdContent "[x](a)")], true))
  ∧ (fixRelFixFile "docs/commands/a.md" "plain text" = ([], false))
  ∧ (fixRelFixFile "docs/commands/a.md" "[s](commands/b.md)" =
      ([("docs/commands/a.md", fixRelContent "[s](commands/b.md)")], true)) :=
  ⟨(C9_no_op_write_avoidance "docs/index.md" "plain text").1 (by decide),
   (C9_no_op_write_avoidance "docs/index.md" "[x](a)").2.1 (by decide),
   (C9_no_op_write_avoidance "docs/commands/a.md" "plain text").2.2.1 (by decide),
   (C9_no_op_write_avoidance "docs/commands/a.md" "[s](commands/b.md)").2.2.2
     (by decide) (by decide)⟩

/-- C7: every replace function of the three scripts passes the display
text between the square brackets through byte-identically; only the
target inside the parentheses is transformed. -/
theorem C7_display_text_preserved :
    (∀ t u : String, ∃ v, addMdReplaceLink t u = "[" ++ t ++ "](" ++ v ++ ")")
  ∧ (∀ (t u : String) (a : Option String), ∃ v,
      jekyllReplaceLink t u a = "[" ++ t ++ "](" ++ v ++ ")")
  ∧ (∀ t u : String, ∃ v, fixRelReplaceLink t u = "[" ++ t ++ "](" ++ v ++ ")") := by
  refine ⟨fun t u => ?_, fun t u a => ⟨_, rfl⟩, fun t u => ⟨_, rfl⟩⟩
  simp only [addMdReplaceLink]
  repeat' split
  all_goals exact ⟨_, rfl⟩

/-- C10: the denylist comparison of add-md-extensions.py uppercases the
path part before any fragment, so every reference whose path part
uppercases to SECURITY or RELEASE, lowercase and mixed-case forms
included, is returned unchanged. -/
theorem C10_denylist_case_insensitive (t url : String)
    (h : pyUpper (String.mk (beforeHash url.data)) = "SECURITY" ∨
         pyUpper (String.mk (beforeHash url.data)) = "RELEASE") :
    addMdReplaceLink t url = "[" ++ t ++ "](" ++ url ++ ")" := by
  unfold addMdReplaceLink
  split
  · rfl
  split
  · rfl
  split
  · dsimp only
    split
    · rfl
    · rfl
  · rename_i hnh
    split
    · rfl
    · rename_i hden
      rw [beforeHash_of_not_hasHash url.data (by simpa using hnh)] at h
      exact absurd h hden

theorem C10_denylist_case_insensitive_witness :
    (pyUpper (String.mk (beforeHash ("security").data)) = "SECURITY" ∨
     pyUpper (String.mk (beforeHash ("security").data)) = "RELEASE")
  ∧ addMdReplaceLink "Policy" "security" = "[Policy](security)"
  ∧ (pyUpper (String.mk (beforeHash ("Release#notes").data)) = "SECURITY" ∨
     pyUpper (String.mk (beforeHash ("Release#notes").data)) = "RELEASE")
  ∧ addMdReplaceLink "Notes" "Release#notes" = "[Notes](Release#notes)" :=
  ⟨by decide,
   C10_denylist_case_insensitive "Policy" "security" (by decide),
   by decide,
   C10_denylist_case_insensitive "Notes" "Release#notes" (by decide)⟩

/-- C3 counterexample: the claim says the rewriter strips one leading
path separator from the unwrapped template path; on the operand with two
leading separators the source strips both, so the output differs from
the target the claim predicts. -/
theorem C3_cex_strips_all_separators :
    jekyllReplaceLink "Guide" "//setup" none = "[Guide](setup.md)" ∧
    claimC3Target "//setup" none = "/setup.md" ∧
    jekyllReplaceLink "Guide" "//setup" none ≠
      "[" ++ "Guide" ++ "](" ++ claimC3Target "//setup" none ++ ")" := by
  refine ⟨by decide, by decide, by decide⟩

/-- C3 amended: for a link wrapped in the template-relative helper, the
rewriter unwraps it to the bare path, strips all leading path separators,
appends the canonical extension when the stripped path does not already
end in it and does not start with "http" or with "#", and reattaches the
fragment with #; on the example operand "/setup" with fragment "install"
the output target is setup.md#install. -/
theorem C3_amended_template_rewrite :
    (∀ t u : String, jekyllReplaceLink t u none =
      "[" ++ t ++ "](" ++ amendedJekyllTarget u none ++ ")")
  ∧ (∀ t u a : String, a ≠ "" → jekyllReplaceLink t u (some a) =
      "[" ++ t ++ "](" ++ amendedJekyllTarget u (some a) ++ ")")
  ∧ jekyllReplaceLink "Guide" "/setup" (some "install") = "[Guide](setup.md#install)" := by
  refine ⟨fun t u => ?_, fun t u a ha => ?_, by decide⟩
  · simp only [jekyllReplaceLink, amendedJekyllTarget, lstripSlashes_eq_dropWhile]
    split <;> split <;> first | rfl | tauto
  · simp only [jekyllReplaceLink, amendedJekyllTarget, lstripSlashes_eq_dropWhile,
      if_neg ha]
    split <;> split <;> first | rfl | tauto

theorem C3_amended_template_rewrite_witness :
    ("install" : String) ≠ "" ∧
    jekyllReplaceLink "Guide" "/setup" (some "install") =
      "[" ++ "Guide" ++ "](" ++ amendedJekyllTarget "/setup" (some "install") ++ ")" :=
  ⟨by decide, C3_amended_template_rewrite.2.1 "Guide" "/setup" "install" (by decide)⟩

theorem matchCmdLink_single (t u r : List Char)
    (ht : t ≠ []) (ht2 : ∀ c ∈ t, (c != ']') = true)
    (hu : u ≠ []) (hu2 : ∀ c ∈ u, (c != ')') = true) :
    matchCmdLink ('[' :: (t ++ ']' :: '(' :: ("commands/".data ++ (u ++ ')' :: r)))) =
      some (t, u, r) := by
  have h1 := takeWhile_stop (· != ']') t ']'
    ('(' :: ("commands/".data ++ (u ++ ')' :: r))) ht2 (by decide)
  have h2 := takeWhile_stop (· != ')') u ')' r hu2 (by decide)
  simp only [matchCmdLink, h1.1, h1.2, dropLit_self, h2.1, h2.2,
    isEmpty_false_of_ne_nil ht, isEmpty_false_of_ne_nil hu]
  rfl

theorem subCmdLinks_single (t u : List Char) (n : Nat)
    (ht : t ≠ []) (ht2 : ∀ c ∈ t, (c != ']') = true)
    (hu : u ≠ []) (hu2 : ∀ c ∈ u, (c != ')') = true) :
    subCmdLinks (n + 1) ('[' :: (t ++ ']' :: '(' :: ("commands/".data ++ (u ++ [')'])))) =
      '[' :: (t ++ ']' :: '(' :: (u ++ [')'])) := by
  have hm := matchCmdLink_single t u [] ht ht2 hu hu2
  simp only [subCmdLinks, hm, subCmdLinks_nil, List.append_nil, fixRelReplaceLink]
  rw [data_append, data_append, data_append, data_append]
  show ['['] ++ t ++ ([']', '('] : List Char) ++ u ++ ([')'] : List Char) = _
  simp [List.append_assoc]

/-- C6: inside a document whose path lies in the commands subtree, a link
whose target starts with the redundant "commands/" segment has that
segment removed by the rewriting pass, the rest of the target, fragment
included, being kept byte-identical, and the changed document is written
back. -/
theorem C6_commands_segment_stripped (path t u : String)
    (hpath : containsSub "commands".data path.data = true)
    (ht : t.data ≠ []) (ht2 : ']' ∉ t.data)
    (hu : u.data ≠ []) (hu2 : ')' ∉ u.data) :
    fixRelFixFile path ("[" ++ t ++ "](commands/" ++ u ++ ")") =
      ([(path, "[" ++ t ++ "](" ++ u ++ ")")], true) := by
  have ht2' : ∀ c ∈ t.data, (c != ']') = true := by
    intro c hc
    have : c ≠ ']' := fun e => ht2 (e ▸ hc)
    simpa [bne_iff_ne] using this
  have hu2' : ∀ c ∈ u.data, (c != ')') = true := by
    intro c hc
    have : c ≠ ')' := fun e => hu2 (e ▸ hc)
    simpa [bne_iff_ne] using this
  have hdata : ("[" ++ t ++ "](commands/" ++ u ++ ")").data =
      '[' :: (t.data ++ ']' :: '(' :: ("commands/".data ++ (u.data ++ [')']))) := by
    rw [data_append, data_append, data_append, data_append]
    simp only [List.append_assoc]
    rfl
  have hdata2 : ("[" ++ t ++ "](" ++ u ++ ")").data =
      '[' :: (t.data ++ ']' :: '(' :: (u.data ++ [')'])) := by
    rw [data_append, data_append, data_append, data_append]
    simp only [List.append_assoc]
    rfl
  have hnew : fixRelContent ("[" ++ t ++ "](commands/" ++ u ++ ")") =
      "[" ++ t ++ "](" ++ u ++ ")" := by
    unfold fixRelContent
    rw [hdata, List.length_cons,
      subCmdLinks_single t.data u.data _ ht ht2' hu hu2', ← hdata2]
  have hlenapp : ∀ a b : String, (a ++ b).length = a.length + b.length := by
    intro a b
    show (a ++ b).data.length = a.data.length + b.data.length
    rw [data_append, List.length_append]
  have hne : "[" ++ t ++ "](" ++ u ++ ")" ≠ "[" ++ t ++ "](commands/" ++ u ++ ")" := by
    intro e
    have h3 := congrArg String.length e
    simp only [hlenapp] at h3
    have e1 : "[".length = 1 := rfl
    have e2 : "](".length = 2 := rfl
    have e3 : "](commands/".length = 11 := rfl
    have e4 : ")".length = 1 := rfl
    rw [e1, e2, e3, e4] at h3
    omega
  unfold fixRelFixFile
  rw [if_neg (by simp [hpath])]
  dsimp only
  rw [hnew, if_pos hne]

theorem C6_commands_segment_stripped_witness :
    (containsSub "commands".data ("docs/commands/index.md").data = true ∧
     ("See").data ≠ [] ∧ ']' ∉ ("See").data ∧
     ("build.md").data ≠ [] ∧ ')' ∉ ("build.md").data)
  ∧ fixRelFixFile "docs/commands/index.md"
      ("[" ++ "See" ++ "](commands/" ++ "build.md" ++ ")") =
      ([("docs/commands/index.md", "[" ++ "See" ++ "](" ++ "build.md" ++ ")")], true) :=
  ⟨by decide,
   C6_commands_segment_stripped "docs/commands/index.md" "See" "build.md"
     (by decide) (by decide) (by decide) (by decide) (by decide)⟩

end Raps
